import Mathlib

/-!
Verification of the core logic of the Kali-Linux-Academy content bot
(`src/bot.py`) against its natural-language specification.

The embedding is shallow: Python `str` values are modelled as `List Char`
(`PyStr`), Python dictionaries as association lists with first-match lookup
and in-place overwrite, Python sets as `Finset`, and exceptions as `Except`
values over the error taxonomy of the spec (`CoreError`).  Every definition
below is translated from the source file; deviations forced by the host
language (e.g. ASCII-only case folding) are recorded in comments.
-/

set_option maxRecDepth 4096

namespace KaliAcademy

/-- Embedding of a Python `str`: a sequence of unicode code points. -/
abbrev PyStr := List Char

/-- The error taxonomy of the spec (§7): `BoundaryViolation` embeds the
`PermissionError` raised by the explicit sandbox checks, `NotFound` embeds
`FileNotFoundError`/`IsADirectoryError`/`NotADirectoryError` (the path does
not exist or is a directory), `IOFailure` embeds `OSError`/decoding errors
during an actual read, and `UnknownToken` embeds the `KeyError` of
`PathRegistry.resolve`. -/
inductive CoreError where
  | BoundaryViolation
  | NotFound
  | IOFailure
  | UnknownToken
  deriving DecidableEq, Repr

/-! ## Python string primitives -/

/-- Python whitespace recognized by `str.strip()` / `\s` (ASCII part:
space, tab, newline, carriage return, vertical tab, form feed).  Python
also strips some non-ASCII unicode whitespace; no claim below depends on
non-ASCII folding. -/
def is_py_space (c : Char) : Bool :=
  c = ' ' || c = '\t' || c = '\n' || c = '\r' || c = Char.ofNat 11 || c = Char.ofNat 12

/-- `str.lower()`.  Lean's `Char.toLower` folds ASCII letters only; Python
also folds non-ASCII letters.  No claim below depends on non-ASCII folding. -/
def py_lower (s : PyStr) : PyStr :=
  s.map Char.toLower

/-- `str.strip()` with no argument: drop leading and trailing whitespace. -/
def py_strip (s : PyStr) : PyStr :=
  ((s.dropWhile is_py_space).reverse.dropWhile is_py_space).reverse

/-- `str.rstrip("\r")`: drop trailing carriage returns. -/
def rstrip_cr (s : PyStr) : PyStr :=
  (s.reverse.dropWhile (· = '\r')).reverse

/-- Python `text.split(sep)` for a one-character separator: no merging of
adjacent separators, `"".split(sep) = [""]`. -/
def split_on (sep : Char) : PyStr → List PyStr
  | [] => [[]]
  | c :: rest =>
    match split_on sep rest with
    | [] => [[c]]  -- unreachable: split_on never returns []
    | g :: gs => if c = sep then [] :: g :: gs else (c :: g) :: gs

/-- Python `"\n".join(parts)` (generalized to any one-character glue). -/
def join_with (glue : Char) : List PyStr → PyStr
  | [] => []
  | [l] => l
  | l :: rest => l ++ glue :: join_with glue rest

/-- `str.replace(pat, rep)` for a one-character pattern. -/
def replace_all (pat : Char) (rep : PyStr) : PyStr → PyStr
  | [] => []
  | c :: cs => if c = pat then rep ++ replace_all pat rep cs else c :: replace_all pat rep cs

/-- Python substring test `pat in s`. -/
def is_substr (pat : PyStr) : PyStr → Bool
  | [] => pat.isEmpty
  | c :: cs => pat.isPrefixOf (c :: cs) || is_substr pat cs

/-- First-match association-list lookup: embedding of Python `d[k]` /
`k in d` on dictionaries (keys of a Python dict are unique, so first match
is the only match). -/
def lookup_key [DecidableEq α] : List (α × β) → α → Option β
  | [], _ => none
  | (a, b) :: rest, k => if a = k then some b else lookup_key rest k

/-- Python dict assignment `d[k] = v`: overwrite the existing binding in
place, otherwise append the new binding (insertion order preserved). -/
def dict_set [DecidableEq α] : List (α × β) → α → β → List (α × β)
  | [], k, v => [(k, v)]
  | (a, b) :: rest, k, v => if a = k then (k, v) :: rest else (a, b) :: dict_set rest k v

/-! ## Decimal tokens: `str(counter)`

`PathRegistry.get_id` allocates tokens with Python `str(self._counter)`,
embedded as `(Nat.repr counter).data`.  The registry invariant needs that
distinct counters yield distinct tokens, i.e. injectivity of `Nat.repr`,
proved here through a decoding function. -/

/-- Decode a decimal digit string back to a number (left inverse of
`Nat.toDigits 10`). -/
def dec_val (l : List Char) : Nat :=
  l.foldl (fun a c => 10 * a + (c.toNat - 48)) 0

theorem dec_val_append_singleton (xs : List Char) (c : Char) :
    dec_val (xs ++ [c]) = 10 * dec_val xs + (c.toNat - 48) := by
  simp [dec_val, List.foldl_append]

theorem digitChar_toNat_of_lt_ten (m : Nat) (h : m < 10) :
    (Nat.digitChar m).toNat = 48 + m := by
  interval_cases m <;> rfl

theorem toDigitsCore_ten_append (fuel n : Nat) (ds : List Char) :
    Nat.toDigitsCore 10 fuel n ds = Nat.toDigitsCore 10 fuel n [] ++ ds := by
  induction fuel generalizing n ds with
  | zero => simp [Nat.toDigitsCore]
  | succ fuel ih =>
    by_cases h : n / 10 = 0
    · simp [Nat.toDigitsCore, h]
    · rw [show Nat.toDigitsCore 10 (fuel + 1) n ds
          = Nat.toDigitsCore 10 fuel (n / 10) (Nat.digitChar (n % 10) :: ds) by
            simp [Nat.toDigitsCore, h],
        show Nat.toDigitsCore 10 (fuel + 1) n []
          = Nat.toDigitsCore 10 fuel (n / 10) [Nat.digitChar (n % 10)] by
            simp [Nat.toDigitsCore, h],
        ih, ih (n / 10) [Nat.digitChar (n % 10)], List.append_assoc]
      rfl

theorem dec_val_toDigitsCore (fuel n : Nat) (h : n < fuel) :
    dec_val (Nat.toDigitsCore 10 fuel n []) = n := by
  induction fuel generalizing n with
  | zero => omega
  | succ fuel ih =>
    by_cases h0 : n / 10 = 0
    · have : Nat.toDigitsCore 10 (fuel + 1) n [] = [Nat.digitChar (n % 10)] := by
        simp [Nat.toDigitsCore, h0]
      rw [this]
      have hm : n % 10 < 10 := Nat.mod_lt _ (by omega)
      have := Nat.div_add_mod n 10
      simp [dec_val, digitChar_toNat_of_lt_ten _ hm]
      omega
    · have step : Nat.toDigitsCore 10 (fuel + 1) n []
          = Nat.toDigitsCore 10 fuel (n / 10) [] ++ [Nat.digitChar (n % 10)] := by
        rw [show Nat.toDigitsCore 10 (fuel + 1) n []
            = Nat.toDigitsCore 10 fuel (n / 10) [Nat.digitChar (n % 10)] by
              simp [Nat.toDigitsCore, h0]]
        exact toDigitsCore_ten_append fuel (n / 10) [Nat.digitChar (n % 10)]
      have hlt : n / 10 < fuel := by
        have h1 : 0 < n := by
          rcases Nat.eq_zero_or_pos n with rfl | hp
          · simp at h0
          · exact hp
        have := Nat.div_lt_self h1 (show 1 < 10 by omega)
        omega
      have hm : n % 10 < 10 := Nat.mod_lt _ (by omega)
      rw [step, dec_val_append_singleton, ih _ hlt, digitChar_toNat_of_lt_ten _ hm]
      have := Nat.div_add_mod n 10
      omega

/-- `str` on naturals is injective: distinct counters give distinct tokens. -/
theorem nat_repr_data_injective {m n : Nat} (h : (Nat.repr m).data = (Nat.repr n).data) :
    m = n := by
  have hm : dec_val (Nat.repr m).data = m := by
    show dec_val (Nat.toDigits 10 m) = m
    exact dec_val_toDigitsCore (m + 1) m (Nat.lt_succ_self m)
  have hn : dec_val (Nat.repr n).data = n := by
    show dec_val (Nat.toDigits 10 n) = n
    exact dec_val_toDigitsCore (n + 1) n (Nat.lt_succ_self n)
  rw [← hm, ← hn, h]

/-! ## Content Tree Accessor (`list_dir`, `read_text_file`)

The filesystem is modelled as a tree rooted at `/`: `FsNode.dir` carries its
named children, `FsNode.file (some text)` a readable text file, and
`FsNode.file none` a file whose `open`/read/decode raises (the `IOFailure`
case of the taxonomy).  Symlinks are not modelled, so `Path.resolve()`
reduces to lexical normalization of `..`/`.` components. -/

inductive FsNode where
  | dir (children : List (PyStr × FsNode))
  | file (content : Option PyStr)

def entry_is_dir : FsNode → Bool
  | .dir _ => true
  | .file _ => false

/-- Walk an absolute component path down the tree.  `none` when the path
does not exist (including traversal through a file, Python's
`NotADirectoryError`). -/
def lookup_node : FsNode → List PyStr → Option FsNode
  | node, [] => some node
  | node, c :: rest =>
    match node with
    | .dir children =>
      match lookup_key children c with
      | some child => lookup_node child rest
      | none => none
    | .file _ => none

/-- `(INFO_ROOT / rel_path).resolve()`: join against the root (a leading
`/` in `rel_path` makes `Path.__truediv__` discard the root entirely) and
normalize `.`/`..`/empty components; `..` at the filesystem root stays at
the root. -/
def resolved_path (root : List PyStr) (rel : PyStr) : List PyStr :=
  let start := if rel.head? = some '/' then [] else root
  (split_on '/' rel).foldl
    (fun acc c =>
      if c = [] ∨ c = ".".data then acc
      else if c = "..".data then acc.dropLast
      else acc ++ [c])
    start

/-- The containment check `INFO_ROOT in p.parents or p == INFO_ROOT`
(the source writes its negation): on resolved absolute paths this is
exactly "the root's components are a prefix of the path's components". -/
def inside_root (root p : List PyStr) : Bool :=
  root.isPrefixOf p

/-- `PurePath.suffix` of a file name: the part from the last dot on, empty
when there is no dot, when the only dot is the leading character (hidden
file), or when the name ends in the dot. -/
def py_suffix (name : PyStr) : PyStr :=
  let after := name.reverse.takeWhile (· ≠ '.')
  if after.length = name.length then []
  else if 0 < name.length - 1 - after.length ∧ after ≠ [] then
    name.drop (name.length - 1 - after.length)
  else []

/-- `PurePath.stem`: the name with its `py_suffix` removed. -/
def py_stem (name : PyStr) : PyStr :=
  if py_suffix name = [] then name else name.take (name.length - (py_suffix name).length)

/-- `(Path(rel_dir) / entry.name).as_posix()` for the normalized relative
paths the bot passes around (the empty path denotes the root). -/
def join_rel (rel name : PyStr) : PyStr :=
  if rel = [] then name else rel ++ '/' :: name

/-- Strict code-point comparison of strings, Python `str.__lt__`. -/
def lex_lt : PyStr → PyStr → Bool
  | [], [] => false
  | [], _ :: _ => true
  | _ :: _, [] => false
  | x :: xs, y :: ys => if x < y then true else if x = y then lex_lt xs ys else false

def lex_le (a b : PyStr) : Bool :=
  lex_lt a b || a = b

/-- Sort key of `list_dir`: `(not p.is_dir(), p.name.lower())`, compared
lexicographically (`False < True`, then string order). -/
def entry_le (a b : PyStr × FsNode) : Bool :=
  (entry_is_dir a.2 && !entry_is_dir b.2) ||
    (entry_is_dir a.2 = entry_is_dir b.2 && lex_le (py_lower a.1) (py_lower b.1))

/-- Stable insertion into a sorted list, auxiliary for `py_sorted`. -/
def insert_le (le : α → α → Bool) (x : α) : List α → List α
  | [] => [x]
  | y :: ys => if le x y then x :: y :: ys else y :: insert_le le x ys

/-- Python's stable `sorted(entries, key=...)`, as stable insertion sort. -/
def py_sorted (le : α → α → Bool) : List α → List α
  | [] => []
  | x :: xs => insert_le le x (py_sorted le xs)

/-- `list_dir(rel_dir)`: boundary check first, then one pass over the
sorted entries, directories into the first list and `.txt` files (stem as
display name) into the second; the single Python loop appending to two
lists is rendered as two order-preserving passes. -/
def list_dir (fs : FsNode) (root : List PyStr) (rel : PyStr) :
    Except CoreError (List (PyStr × PyStr) × List (PyStr × PyStr)) :=
  let base := resolved_path root rel
  if inside_root root base then
    match lookup_node fs base with
    | some (.dir children) =>
      let entries := py_sorted entry_le children
      .ok
        (entries.filterMap fun e =>
          if entry_is_dir e.2 then some (e.1, join_rel rel e.1) else none,
         entries.filterMap fun e =>
          if entry_is_dir e.2 then none
          else if py_lower (py_suffix e.1) = ".txt".data then
            some (py_stem e.1, join_rel rel e.1)
          else none)
    | some (.file _) => .error .NotFound  -- iterdir on a file: NotADirectoryError
    | none => .error .NotFound            -- FileNotFoundError
  else .error .BoundaryViolation          -- raise PermissionError(...)

/-- `read_text_file(rel_path)`: boundary check first, then `open(...)` and
read; a missing path or a directory raises the not-found family, a
present-but-unreadable file raises a read error. -/
def read_text_file (fs : FsNode) (root : List PyStr) (rel : PyStr) :
    Except CoreError PyStr :=
  let file_path := resolved_path root rel
  if inside_root root file_path then
    match lookup_node fs file_path with
    | none => .error .NotFound            -- FileNotFoundError / NotADirectoryError
    | some (.dir _) => .error .NotFound   -- IsADirectoryError
    | some (.file none) => .error .IOFailure
    | some (.file (some text)) => .ok text
  else .error .BoundaryViolation          -- raise PermissionError(...)

/-! ## Reference Registry (`PathRegistry`) -/

structure PathRegistry where
  id_to_path : List (PyStr × (PyStr × PyStr))
  path_to_id : List ((PyStr × PyStr) × PyStr)
  counter : Nat

def PathRegistry.init : PathRegistry :=
  ⟨[], [], 0⟩

/-- `PathRegistry.get_id`: return an existing token for `(kind, rel_path)`,
or bump the counter, allocate `str(counter)` and record the mapping both
ways.  Returns the token together with the updated registry. -/
def get_id (r : PathRegistry) (kind rel : PyStr) : PyStr × PathRegistry :=
  let key := (kind, rel)
  match lookup_key r.path_to_id key with
  | some assigned => (assigned, r)
  | none =>
    let counter := r.counter + 1
    let assigned := (Nat.repr counter).data
    (assigned,
      ⟨(assigned, key) :: r.id_to_path, (key, assigned) :: r.path_to_id, counter⟩)

/-- `PathRegistry.resolve`: `self._id_to_path[assigned_id]`, whose
`KeyError` is the `UnknownToken` of the taxonomy. -/
def PathRegistry.resolve (r : PathRegistry) (assigned : PyStr) :
    Except CoreError (PyStr × PyStr) :=
  match lookup_key r.id_to_path assigned with
  | some kp => .ok kp
  | none => .error .UnknownToken

/-- Registry state after an arbitrary sequence of `get_id` calls from the
fresh registry the process starts with: the reachable states. -/
def apply_get_ids (ops : List (PyStr × PyStr)) : PathRegistry :=
  ops.foldl (fun r kp => (get_id r kp.1 kp.2).2) PathRegistry.init

/-- Coupling invariant of the two registry maps: every forward binding has
the matching backward binding, and every issued token is the decimal image
of a counter value already consumed. -/
def RegInv (r : PathRegistry) : Prop :=
  (∀ k i, lookup_key r.path_to_id k = some i → lookup_key r.id_to_path i = some k) ∧
  (∀ i k, lookup_key r.id_to_path i = some k →
    ∃ n, 1 ≤ n ∧ n ≤ r.counter ∧ i = (Nat.repr n).data)

theorem regInv_init : RegInv PathRegistry.init := by
  constructor
  · intro k i h
    simp [PathRegistry.init, lookup_key] at h
  · intro i k h
    simp [PathRegistry.init, lookup_key] at h

theorem regInv_get_id (r : PathRegistry) (kind rel : PyStr) (h : RegInv r) :
    RegInv (get_id r kind rel).2 := by
  obtain ⟨hfwd, htok⟩ := h
  cases hl : lookup_key r.path_to_id (kind, rel) with
  | some assigned =>
    simp only [get_id, hl]
    exact ⟨hfwd, htok⟩
  | none =>
    simp only [get_id, hl]
    constructor
    · intro k i hk
      simp only [lookup_key] at hk ⊢
      by_cases hkey : (kind, rel) = k
      · simp only [hkey, if_pos rfl] at hk
        cases hk
        simp [← hkey]
      · rw [if_neg hkey] at hk
        have hold := hfwd k i hk
        have hfresh : (Nat.repr (r.counter + 1)).data ≠ i := by
          intro hcontra
          obtain ⟨n, hn1, hn2, hn3⟩ := htok i k hold
          have := nat_repr_data_injective (hn3 ▸ hcontra)
          omega
        rw [if_neg hfresh]
        exact hold
    · intro i k hk
      simp only [lookup_key] at hk
      by_cases hi : (Nat.repr (r.counter + 1)).data = i
      · exact ⟨r.counter + 1, by omega, le_refl _, hi.symm⟩
      · rw [if_neg hi] at hk
        obtain ⟨n, hn1, hn2, hn3⟩ := htok i k hk
        refine ⟨n, hn1, ?_, hn3⟩
        show n ≤ r.counter + 1
        omega

theorem regInv_apply_get_ids (ops : List (PyStr × PyStr)) :
    RegInv (apply_get_ids ops) := by
  suffices h : ∀ r, RegInv r → RegInv (ops.foldl (fun r kp => (get_id r kp.1 kp.2).2) r) by
    exact h _ regInv_init
  induction ops with
  | nil => intro r hr; exact hr
  | cons kp rest ih =>
    intro r hr
    exact ih _ (regInv_get_id r kp.1 kp.2 hr)

/-! ## Text Renderer/Chunker (`render_txt_to_html`) -/

/-- `escape_html`: the three sequential `str.replace` calls of the source
(`&` first, so the entities introduced for `<`/`>` are not re-escaped). -/
def escape_html (s : PyStr) : PyStr :=
  replace_all '>' "&gt;".data
    (replace_all '<' "&lt;".data
      (replace_all '&' "&amp;".data s))

/-- `flush_buffer()`: push `"\n".join(buffer)` unless the buffer list is
empty (a buffer holding only empty strings is truthy and is flushed). -/
def flush_out (buffer : List PyStr) : List PyStr :=
  if buffer = [] then [] else [join_with '\n' buffer]

/-- Closing a code fence: join the accumulated lines, truncate the joined
code to 2000 characters with the explicit marker, HTML-escape, and wrap in
`<pre>` tags — one self-contained segment. -/
def code_seg (code_buffer : List PyStr) : PyStr :=
  let code_text := join_with '\n' code_buffer
  let code_text :=
    if 2000 < code_text.length then code_text.take 2000 ++ "\n... (код обрезан)".data
    else code_text
  "<pre>".data ++ escape_html code_text ++ "</pre>".data

/-- `re.match(r"^(#+)\s*(.+)$", stripped)` on an already-stripped line,
returning `(level, title)` = (`len(group(1))`, `group(2)`).  The greedy
groups backtrack: on a line of `h ≥ 2` hashes and nothing else, `#+` gives
one hash back to `.+` (level `h-1`, title `"#"`); when everything after
the hashes is whitespace, `\s*` leaves its last character to `.+`
(unreachable for stripped input, kept for faithfulness). -/
def heading_match (stripped : PyStr) : Option (Nat × PyStr) :=
  let h := (stripped.takeWhile (· = '#')).length
  let rest := stripped.dropWhile (· = '#')
  if h = 0 then none
  else if rest = [] then
    if 2 ≤ h then some (h - 1, ['#']) else none
  else
    let title := rest.dropWhile (fun c => is_py_space c)
    if title = [] then some (h, [rest.getLastD ' '])
    else some (h, title)

/-- `re.match(r"^[-*]\s+", stripped)`: a dash/asterisk followed by at least
one whitespace character. -/
def bullet_match (stripped : PyStr) : Bool :=
  match stripped with
  | c :: c2 :: _ => (c = '-' || c = '*') && is_py_space c2
  | _ => false

/-- `re.sub(r"^[-*]\s+", "", stripped)` when `bullet_match` holds: drop the
marker and the greedy run of whitespace after it. -/
def bullet_strip (stripped : PyStr) : PyStr :=
  (stripped.drop 1).dropWhile (fun c => is_py_space c)

/-- The heading emoji chosen by depth: `🟢` for level 1, `🟡` for level 2,
`🔴` deeper. -/
def heading_pfx (level : Nat) : PyStr :=
  if level = 1 then "🟢".data else if level = 2 then "🟡".data else "🔴".data

/-- The line loop of `render_txt_to_html`, producing `html_parts`: code
fences toggle code mode; closing a fence flushes the text buffer and emits
the code segment; outside code mode lines are classified as blank /
heading / bullet / plain paragraph and accumulated into the buffer.  The
final flush drops an unclosed code buffer, exactly as the source does. -/
def process_lines : List PyStr → List PyStr → Bool → List PyStr → List PyStr
  | [], buffer, _, _ => flush_out buffer
  | raw :: rest, buffer, in_code, code_buffer =>
    let line := rstrip_cr raw
    if "```".data.isPrefixOf (py_strip line) then
      if in_code then
        flush_out buffer ++ code_seg code_buffer :: process_lines rest [] false []
      else
        process_lines rest buffer true []
    else if in_code then
      process_lines rest buffer in_code (code_buffer ++ [line])
    else
      let stripped := py_strip line
      if stripped = [] then
        process_lines rest (buffer ++ [[]]) in_code code_buffer
      else
        match heading_match stripped with
        | some (level, title) =>
          process_lines rest
            (buffer ++ [heading_pfx level ++ " <b>".data ++ escape_html title ++ "</b>".data])
            in_code code_buffer
        | none =>
          if bullet_match stripped then
            process_lines rest (buffer ++ ["• ".data ++ escape_html (bullet_strip stripped)])
              in_code code_buffer
          else
            process_lines rest (buffer ++ [escape_html line]) in_code code_buffer

/-- The `html_parts` list of the source after the loop and final flush. -/
def html_parts (text : PyStr) : List PyStr :=
  process_lines (split_on '\n' text) [] false []

/-- The greedy packing loop: append a part to the current chunk when the
combined length (plus the joining newline) stays within 3000, otherwise
close the current chunk (if non-empty) and start over from the part. -/
def pack_go : List PyStr → PyStr → List PyStr
  | [], current => if current = [] then [] else [current]
  | part :: rest, current =>
    if 3000 < current.length + part.length + 1 then
      (if current = [] then [] else [current]) ++ pack_go rest part
    else
      pack_go rest (if current = [] then part else current ++ '\n' :: part)

/-- `render_txt_to_html(text)`: classification pass then greedy packing. -/
def render_txt_to_html (text : PyStr) : List PyStr :=
  pack_go (html_parts text) []

/-! ## Search Engine (`on_text_search`) -/

/-- `context[:200] + "..." if len(context) > 200 else context`. -/
def trim_200 (context : PyStr) : PyStr :=
  if 200 < context.length then context.take 200 ++ "...".data else context

/-- The snippet window at line `i`: `lines[max(0, i-1) : min(len(lines), i+2)]`
joined with newlines (`Nat` subtraction is the `max(0, ·)` clamp). -/
def context_window (lines : List PyStr) (i : Nat) : PyStr :=
  let start := i - 1
  let stop := min lines.length (i + 2)
  join_with '\n' ((lines.drop start).take (stop - start))

/-- The snippet-collection loop over `enumerate(lines)`: on each line
containing the term, append the trimmed window and break once three
snippets are collected.  `all` is the full line list (windows index into
it), `i` the current line number. -/
def snippets_go (term : PyStr) (all : List PyStr) : Nat → List PyStr → List PyStr → List PyStr
  | _, [], acc => acc
  | i, line :: rest, acc =>
    if is_substr term line then
      let acc1 := acc ++ [trim_200 (context_window all i)]
      if 3 ≤ acc1.length then acc1 else snippets_go term all (i + 1) rest acc1
    else snippets_go term all (i + 1) rest acc

/-- `matching_lines` as computed for one document. -/
def collect_snippets (term : PyStr) (lines : List PyStr) : List PyStr :=
  snippets_go term lines 0 lines []

/-- The indices of the lines containing the term, in line order, starting
at index `i` — the spec-side notion of "matching lines". -/
def matches_from (term : PyStr) : Nat → List PyStr → List Nat
  | _, [] => []
  | i, line :: rest =>
    if is_substr term line then i :: matches_from term (i + 1) rest
    else matches_from term (i + 1) rest

/-- The spec's description of the snippet list (§4.5): the first three
matching lines, each rendered as its context window (line plus one
neighbour on each side), trimmed to 200 characters with an ellipsis
marker.  Stated separately from the loop `collect_snippets` so the claim
can compare the two. -/
def spec_snippets (term : PyStr) (lines : List PyStr) : List PyStr :=
  ((matches_from term 0 lines).take 3).map fun i => trim_200 (context_window lines i)

/-- One document's contribution to the search results.  The document is
given as `(file_path, content)` where `content = none` embeds a
`read_text_file` failure (caught, logged, document skipped).  The content
is lower-cased, a candidate matches by content or path substring, and the
entry survives only if the snippet loop found at least one window. -/
def doc_entry (term : PyStr) (doc : PyStr × Option PyStr) : Option (PyStr × List PyStr) :=
  match doc.2 with
  | none => none
  | some text =>
    let content := py_lower text
    if is_substr term content || is_substr term (py_lower doc.1) then
      let matching_lines := collect_snippets term (split_on '\n' content)
      if matching_lines = [] then none else some (doc.1, matching_lines)
    else none

/-- The `results` list accumulated over `scan_all_txt()` in enumeration
order (display capping to 5 and the result keyboard are transport-side). -/
def search_results (docs : List (PyStr × Option PyStr)) (term : PyStr) :
    List (PyStr × List PyStr) :=
  docs.filterMap (doc_entry term)

/-- Outcome of the `on_text_search` handler for a plain text message. -/
inductive SearchReply where
  | tooShort
  | noResults
  | results (entries : List (PyStr × List PyStr))
  deriving DecidableEq

/-- `on_text_search`: lower-case and strip the query, fail fast below two
characters (before any document is read — the reply is the same for every
document list), otherwise scan all documents. -/
def on_text_search (docs : List (PyStr × Option PyStr)) (raw : PyStr) : SearchReply :=
  let search_term := py_strip (py_lower raw)
  if search_term.length < 2 then .tooShort
  else
    let results := search_results docs search_term
    if results = [] then .noResults else .results results

/-! ## Progress Store and stats (`on_stats_command` / `on_stats_callback`) -/

/-- Per-process progress state: `user_progress : Dict[int, Dict[str, bool]]`. -/
abbrev Progress := List (Int × List (PyStr × Bool))

/-- The marking step of `on_open_file` / `on_random_callback`:
`user_progress.setdefault(user)[rel_path] = True` (create the empty user
map when absent, then set the flag). -/
def mark_studied (progress : Progress) (user : Int) (rel : PyStr) : Progress :=
  let user_map := (lookup_key progress user).getD []
  dict_set progress user (dict_set user_map rel true)

/-- `user_progress.get(user_id, {}).get(rel, False)`. -/
def is_studied (progress : Progress) (user : Int) (rel : PyStr) : Bool :=
  ((lookup_key ((lookup_key progress user).getD []) rel).getD false)

/-- Reply of the stats handlers (identical logic in `on_stats_command` and
`on_stats_callback`).  The percentage is embedded as a rational; the
claims below only exercise the `total_files = 0` branch, which the source
short-circuits before any division. -/
inductive StatsReply where
  | noMaterials
  | stats (studied total : Nat) (percentage : ℚ)
  deriving DecidableEq

/-- The stats computation common to both handlers: count the `True` flags
of the user's map, reply "no materials" when the scan found no documents,
otherwise report count, total and `studied / total * 100`. -/
def on_stats (user_map : List (PyStr × Bool)) (total_files : Nat) : StatsReply :=
  let studied_files := (user_map.filter fun e => e.2).length
  if total_files = 0 then .noMaterials
  else .stats studied_files total_files ((studied_files : ℚ) / (total_files : ℚ) * 100)

/-! ## Change Watcher (`watch_info_changes`) -/

/-- One iteration of the watcher loop.  `known` is the snapshot, `current`
the result of `scan_all_txt()` this tick, `subs` the subscriber set (in
its Python iteration order).  When new files exist, one notification event
is produced per subscriber per new file (new files in `sorted` order) and
the snapshot is replaced by `current`; otherwise — including ticks where
files were only removed — the body of the `if` is skipped and the snapshot
is left untouched.  Registry registration and keyboard markup of the
notification are transport-side and carry no extra state here; errors in
the tick are caught and do not alter the snapshot further. -/
def watch_tick (known current : Finset String) (subs : List Int) :
    Finset String × List (Int × String) :=
  let new_files := current \ known
  if new_files ≠ ∅ then
    (current,
      (new_files.sort (· ≤ ·)).flatMap fun rel => subs.map fun chat => (chat, rel))
  else (known, [])

/-! ## Opening a document (`on_open_file`, shared core of `on_random_callback`) -/

inductive OpenReply where
  | staleLink                       -- KeyError from resolve: "ссылка устарела"
  | notAFile                        -- kind != "file"
  | errorAlert                      -- any later exception, caught by the handler
  | opened (parts : List PyStr)     -- rendered content segments

/-- The progress/content core of the `open_file` callback: resolve the
token, reject non-file kinds, mark the document studied, then read and
render it.  The marking happens before `read_text_file`, and the
surrounding `except` blocks do not undo it, so a failed read still leaves
the flag set.  Message cleanup, keyboards and message sending are
transport-side. -/
def on_open_file (fs : FsNode) (root : List PyStr) (reg : PathRegistry)
    (progress : Progress) (user : Int) (assigned_id : PyStr) : Progress × OpenReply :=
  match lookup_key reg.id_to_path assigned_id with
  | none => (progress, .staleLink)
  | some (kind, rel) =>
    if kind = "file".data then
      let progress1 := mark_studied progress user rel
      match read_text_file fs root rel with
      | .ok text => (progress1, .opened (render_txt_to_html text))
      | .error _ => (progress1, .errorAlert)
    else (progress, .notAFile)

/-! ## Helper lemmas -/

theorem dropWhile_replicate_of_neg (p : Char → Bool) (c : Char) (n : Nat) (h : p c = false) :
    List.dropWhile p (List.replicate n c) = List.replicate n c := by
  cases n with
  | zero => rfl
  | succ m => simp [List.replicate_succ, List.dropWhile_cons, h]

theorem replace_all_replicate (pat : Char) (rep : PyStr) (c : Char) (n : Nat) (h : c ≠ pat) :
    replace_all pat rep (List.replicate n c) = List.replicate n c := by
  induction n with
  | zero => rfl
  | succ m ih => simp [List.replicate_succ, replace_all, h, ih]

theorem escape_html_replicate_a (n : Nat) :
    escape_html (List.replicate n 'a') = List.replicate n 'a' := by
  unfold escape_html
  rw [replace_all_replicate '&' _ 'a' n (by decide),
    replace_all_replicate '<' _ 'a' n (by decide),
    replace_all_replicate '>' _ 'a' n (by decide)]

theorem py_strip_replicate_a (n : Nat) :
    py_strip (List.replicate n 'a') = List.replicate n 'a' := by
  unfold py_strip
  rw [dropWhile_replicate_of_neg _ _ _ (by decide), List.reverse_replicate,
    dropWhile_replicate_of_neg _ _ _ (by decide), List.reverse_replicate]

theorem rstrip_cr_replicate_a (n : Nat) :
    rstrip_cr (List.replicate n 'a') = List.replicate n 'a' := by
  unfold rstrip_cr
  rw [List.reverse_replicate, dropWhile_replicate_of_neg _ _ _ (by decide),
    List.reverse_replicate]

theorem split_on_eq_single (sep : Char) (s : PyStr) (h : sep ∉ s) :
    split_on sep s = [s] := by
  induction s with
  | nil => rfl
  | cons c cs ih =>
    have h1 : sep ∉ cs := fun hm => h (List.mem_cons_of_mem _ hm)
    have hc : ¬(c = sep) := fun hcs => h (hcs ▸ List.mem_cons_self _ _)
    unfold split_on
    rw [ih h1]
    simp [hc]

theorem bullet_match_replicate_a (m : Nat) :
    bullet_match (List.replicate m 'a') = false := by
  cases m with
  | zero => rfl
  | succ k =>
    cases k with
    | zero => rfl
    | succ j =>
      rw [List.replicate_succ, List.replicate_succ]
      rfl

/-- A single line that is no fence, not blank, no heading and no bullet is
emitted as one flushed paragraph fragment. -/
theorem process_lines_single_plain (l : PyStr)
    (hcr : rstrip_cr l = l) (hstrip : py_strip l = l)
    (hfence : "```".data.isPrefixOf l = false)
    (hnil : ¬(l = []))
    (hhead : heading_match l = none)
    (hbul : bullet_match l = false) :
    process_lines [l] [] false [] = [escape_html l] := by
  unfold process_lines
  simp only [hcr, hstrip, hfence, hhead, hbul, Bool.false_eq_true, if_false, if_neg hnil,
    List.nil_append]
  unfold process_lines
  simp [flush_out, join_with]

theorem html_parts_replicate_a (n : Nat) :
    html_parts (List.replicate (n + 1) 'a') = [List.replicate (n + 1) 'a'] := by
  unfold html_parts
  rw [split_on_eq_single '\n' _ (by simp [List.mem_replicate]),
    process_lines_single_plain _ (rstrip_cr_replicate_a _) (py_strip_replicate_a _)
      (by rw [List.replicate_succ]; rfl) (by simp) (by rw [List.replicate_succ]; rfl)
      (bullet_match_replicate_a _),
    escape_html_replicate_a]

/-- A run of `n + 1` letters `a` in a document with no code fence survives
the classification pass unsplit and, when longer than the cap, is emitted
by the packing loop as a single over-long chunk. -/
theorem render_replicate_a (n : Nat) (h : 3000 < n + 1) :
    render_txt_to_html (List.replicate (n + 1) 'a') = [List.replicate (n + 1) 'a'] := by
  unfold render_txt_to_html
  rw [html_parts_replicate_a]
  unfold pack_go
  simp only [List.length_nil, List.length_replicate]
  rw [if_pos (by omega)]
  unfold pack_go
  simp [List.replicate_succ]

/-- Every chunk the packing loop emits is within the cap, or is one of the
input fragments, or is the chunk under construction it started from. -/
theorem pack_go_mem (parts : List PyStr) (current c : PyStr) (h : c ∈ pack_go parts current) :
    c.length ≤ 3000 ∨ c ∈ parts ∨ c = current := by
  induction parts generalizing current with
  | nil =>
    unfold pack_go at h
    by_cases hc : current = []
    · simp [hc] at h
    · rw [if_neg hc] at h
      exact Or.inr (Or.inr (List.mem_singleton.mp h))
  | cons part rest ih =>
    unfold pack_go at h
    by_cases hbig : 3000 < current.length + part.length + 1
    · rw [if_pos hbig] at h
      rcases List.mem_append.mp h with h1 | h2
      · by_cases hc : current = []
        · simp [hc] at h1
        · rw [if_neg hc] at h1
          exact Or.inr (Or.inr (List.mem_singleton.mp h1))
      · rcases ih part h2 with hl | hm | he
        · exact Or.inl hl
        · exact Or.inr (Or.inl (List.mem_cons_of_mem _ hm))
        · exact Or.inr (Or.inl (he ▸ List.mem_cons_self _ _))
    · rw [if_neg hbig] at h
      rcases ih _ h with hl | hm | he
      · exact Or.inl hl
      · exact Or.inr (Or.inl (List.mem_cons_of_mem _ hm))
      · by_cases hc : current = []
        · rw [if_pos hc] at he
          exact Or.inr (Or.inl (he ▸ List.mem_cons_self _ _))
        · rw [if_neg hc] at he
          left
          rw [he]
          simp only [List.length_append, List.length_cons]
          omega

/-- The snippet loop, started from any accumulator with fewer than three
entries, extends it with the windows of the next matching lines up to the
three-snippet budget. -/
theorem snippets_go_spec (term : PyStr) (all : List PyStr) (rest : List PyStr) :
    ∀ (i : Nat) (acc : List PyStr), acc.length < 3 →
    snippets_go term all i rest acc =
      acc ++ ((matches_from term i rest).take (3 - acc.length)).map
        (fun j => trim_200 (context_window all j)) := by
  induction rest with
  | nil => intro i acc _; simp [snippets_go, matches_from]
  | cons line rest ih =>
    intro i acc hacc
    unfold snippets_go matches_from
    by_cases hm : is_substr term line = true
    · simp only [hm, if_true]
      by_cases h3 : 3 ≤ (acc ++ [trim_200 (context_window all i)]).length
      · rw [if_pos h3]
        have hlen : acc.length = 2 := by
          simp only [List.length_append, List.length_cons, List.length_nil] at h3
          omega
        rw [hlen]
        simp
      · rw [if_neg h3]
        have hlt : (acc ++ [trim_200 (context_window all i)]).length < 3 := by omega
        rw [ih (i + 1) _ hlt]
        have hq : 3 - acc.length = (3 - (acc ++ [trim_200 (context_window all i)]).length) + 1 := by
          simp only [List.length_append, List.length_cons, List.length_nil]
          omega
        rw [hq, List.take_succ_cons, List.map_cons, List.append_assoc]
        rfl
    · simp only [Bool.not_eq_true] at hm
      simp only [hm, Bool.false_eq_true, if_false]
      exact ih (i + 1) acc hacc

/-- The loop-computed `matching_lines` coincide with the spec's description
of the snippet list. -/
theorem collect_snippets_eq_spec (term : PyStr) (lines : List PyStr) :
    collect_snippets term lines = spec_snippets term lines := by
  unfold collect_snippets spec_snippets
  rw [snippets_go_spec term lines lines 0 [] (by simp)]
  simp

theorem matches_from_eq_nil (term : PyStr) (lines : List PyStr)
    (h : ∀ l ∈ lines, is_substr term l = false) :
    ∀ i, matches_from term i lines = [] := by
  induction lines with
  | nil => intro i; rfl
  | cons line rest ih =>
    intro i
    unfold matches_from
    rw [h line (List.mem_cons_self _ _)]
    simp only [Bool.false_eq_true, if_false]
    exact ih (fun l hl => h l (List.mem_cons_of_mem _ hl)) (i + 1)

theorem doc_entry_fst (term : PyStr) (d : PyStr × Option PyStr) (p : PyStr) (s : List PyStr)
    (h : doc_entry term d = some (p, s)) : p = d.1 := by
  rcases d with ⟨path, oc⟩
  cases oc with
  | none => simp [doc_entry] at h
  | some text =>
    unfold doc_entry at h
    simp only at h
    split_ifs at h
    cases h
    rfl

/-- A document none of whose (lower-cased) lines contains the term
contributes no result entry, whatever its path. -/
theorem doc_entry_no_line_match (term path text : PyStr)
    (h : ∀ l ∈ split_on '\n' (py_lower text), is_substr term l = false) :
    doc_entry term (path, some text) = none := by
  have hempty : collect_snippets term (split_on '\n' (py_lower text)) = [] := by
    rw [collect_snippets_eq_spec]
    unfold spec_snippets
    rw [matches_from_eq_nil term _ h 0]
    rfl
  unfold doc_entry
  simp only [hempty]
  split_ifs <;> rfl

theorem lookup_dict_set [DecidableEq α] (l : List (α × β)) (k : α) (v : β) :
    lookup_key (dict_set l k v) k = some v := by
  induction l with
  | nil => simp [dict_set, lookup_key]
  | cons e rest ih =>
    rcases e with ⟨a, b⟩
    by_cases ha : a = k
    · simp [dict_set, ha, lookup_key]
    · simp [dict_set, ha, lookup_key, ih]

theorem is_studied_mark_studied (progress : Progress) (user : Int) (rel : PyStr) :
    is_studied (mark_studied progress user rel) user rel = true := by
  unfold is_studied mark_studied
  rw [lookup_dict_set]
  simp [lookup_dict_set]

/-! ## Claim theorems -/

/-- C1: for every filesystem, root and relative path whose canonicalized
resolution lands outside the content root, both `list_dir` and
`read_text_file` fail with the `BoundaryViolation` error (the raised
`PermissionError`) and return no directory entries and no file text. -/
theorem c1_outside_root_rejected (fs : FsNode) (root : List PyStr) (rel : PyStr)
    (h : inside_root root (resolved_path root rel) = false) :
    list_dir fs root rel = .error .BoundaryViolation ∧
    read_text_file fs root rel = .error .BoundaryViolation := by
  constructor
  · unfold list_dir
    simp [h]
  · unfold read_text_file
    simp [h]

/-- C1 witness: `../../etc/passwd` resolves outside the root
`/srv/info`, and both accessors reject it. -/
theorem c1_outside_root_rejected_witness :
    list_dir (FsNode.dir []) ["srv".data, "info".data] "../../etc/passwd".data
        = .error .BoundaryViolation ∧
    read_text_file (FsNode.dir []) ["srv".data, "info".data] "../../etc/passwd".data
        = .error .BoundaryViolation :=
  c1_outside_root_rejected (FsNode.dir []) ["srv".data, "info".data]
    "../../etc/passwd".data (by decide)

/-- C2: over every registry state reachable by `get_id` calls from the
fresh registry, registering `(kind, rel)` twice returns the same token
both times, and `resolve` of that token in the resulting state returns
exactly `(kind, rel)`. -/
theorem c2_get_id_idempotent_resolve_roundtrip (ops : List (PyStr × PyStr)) (kind rel : PyStr) :
    (get_id (apply_get_ids ops) kind rel).1
        = (get_id (get_id (apply_get_ids ops) kind rel).2 kind rel).1 ∧
    PathRegistry.resolve (get_id (get_id (apply_get_ids ops) kind rel).2 kind rel).2
        ((get_id (apply_get_ids ops) kind rel).1) = .ok (kind, rel) := by
  obtain ⟨hfwd, htok⟩ := regInv_apply_get_ids ops
  cases hl : lookup_key (apply_get_ids ops).path_to_id (kind, rel) with
  | some assigned =>
    have h1 : get_id (apply_get_ids ops) kind rel = (assigned, apply_get_ids ops) := by
      simp [get_id, hl]
    rw [h1]
    constructor
    · simp [get_id, hl]
    · simp [PathRegistry.resolve, h1, hfwd _ _ hl]
  | none =>
    set r := apply_get_ids ops with hr
    set newid := (Nat.repr (r.counter + 1)).data with hnew
    have h1 : get_id r kind rel
        = (newid, ⟨(newid, (kind, rel)) :: r.id_to_path,
            ((kind, rel), newid) :: r.path_to_id, r.counter + 1⟩) := by
      simp [get_id, hl, hnew]
    have h2 : lookup_key (get_id r kind rel).2.path_to_id (kind, rel) = some newid := by
      rw [h1]
      simp [lookup_key]
    have h3 : get_id (get_id r kind rel).2 kind rel = (newid, (get_id r kind rel).2) := by
      conv_lhs => rw [get_id.eq_def]
      simp [h2]
    constructor
    · rw [h3, h1]
    · rw [h3, h1]
      simp [PathRegistry.resolve, lookup_key]

/-- C3 counterexample: a document of 3001 letters `a` (no code fence
anywhere) is rendered as a single segment of length 3001, which exceeds
the composed-segment cap 3000 and also exceeds the claimed code-block
bound of the inner cap 2000 plus truncation marker and `pre` tags — yet it
is no code-block segment.  The claim's size bound therefore fails on a
plain-text segment. -/
theorem c3_chunk_cap_counterexample :
    render_txt_to_html (List.replicate 3001 'a') = [List.replicate 3001 'a'] ∧
    3000 < (List.replicate 3001 'a').length ∧
    2000 + "\n... (код обрезан)".data.length + "<pre>".data.length + "</pre>".data.length
      < (List.replicate 3001 'a').length := by
  refine ⟨render_replicate_a 3000 (by omega), ?_, ?_⟩ <;>
    · rw [List.length_replicate]
      decide

/-- C3 amended: every segment produced by `render_txt_to_html` either has
length at most the composed-segment cap 3000, or consists of a single
unsplit fragment of the classification pass — one flushed run of non-code
lines or one code-block segment (a code block being pre-truncated to the
inner cap 2000 plus marker before HTML-escaping).  Greedy packing never
produces an over-long segment out of more than one fragment. -/
theorem c3_chunk_cap_amended (text c : PyStr) (h : c ∈ render_txt_to_html text) :
    c.length ≤ 3000 ∨ c ∈ html_parts text := by
  rcases pack_go_mem (html_parts text) [] c h with hl | hm | he
  · exact Or.inl hl
  · exact Or.inr hm
  · rw [he]
    exact Or.inl (by simp)

/-- C3 amended witness: the single chunk of a two-character document is
within the cap. -/
theorem c3_chunk_cap_amended_witness :
    "hi".data.length ≤ 3000 ∨ "hi".data ∈ html_parts "hi".data :=
  c3_chunk_cap_amended "hi".data "hi".data (by decide)

/-- C4 counterexample: on a tick where a document was only removed
(snapshot `{a.txt, b.txt}`, scan `{a.txt}`) the snapshot is not replaced:
it stays `{a.txt, b.txt}` and differs from the set scanned at the start of
the tick, contradicting the claimed wholesale replacement on every tick. -/
theorem c4_snapshot_counterexample :
    (watch_tick {"a.txt", "b.txt"} {"a.txt"} []).1 = {"a.txt", "b.txt"} ∧
    (watch_tick {"a.txt", "b.txt"} {"a.txt"} []).1 ≠ ({"a.txt"} : Finset String) := by
  constructor <;> decide

/-- C4 amended: after a watcher tick the snapshot is replaced wholesale by
the scanned set when at least one new document appeared (`current \ known`
non-empty), and is left completely unchanged otherwise — including ticks
on which documents were only removed.  It is never partially updated: the
result is always exactly `current` or exactly `known`. -/
theorem c4_snapshot_amended (known current : Finset String) (subs : List Int) :
    (current \ known ≠ ∅ → (watch_tick known current subs).1 = current) ∧
    (current \ known = ∅ → (watch_tick known current subs).1 = known) := by
  constructor <;> intro h <;> simp [watch_tick, h]

/-- C4 amended witness: a tick that sees the new document `b.txt` replaces
the snapshot with the scan; a removal-only tick keeps the old snapshot. -/
theorem c4_snapshot_amended_witness :
    (watch_tick {"a.txt"} {"a.txt", "b.txt"} []).1 = ({"a.txt", "b.txt"} : Finset String) ∧
    (watch_tick {"a.txt", "b.txt"} {"a.txt"} []).1 = ({"a.txt", "b.txt"} : Finset String) :=
  ⟨(c4_snapshot_amended {"a.txt"} {"a.txt", "b.txt"} []).1 (by decide),
   (c4_snapshot_amended {"a.txt", "b.txt"} {"a.txt"} []).2 (by decide)⟩

/-- C5: whenever the lower-cased, stripped query is shorter than the
minimum length 2, `on_text_search` replies with the too-short hint — for
every document list alike, so no document is read and no scan result can
leak through. -/
theorem c5_short_query_fails_fast (docs : List (PyStr × Option PyStr)) (raw : PyStr)
    (h : (py_strip (py_lower raw)).length < 2) :
    on_text_search docs raw = .tooShort := by
  unfold on_text_search
  simp [h]

/-- C5 witness: the one-character query `" A "` is rejected even though the
sentinel document's content trivially contains `a`. -/
theorem c5_short_query_fails_fast_witness :
    on_text_search [("s.txt".data, some "a line".data)] " A ".data = .tooShort :=
  c5_short_query_fails_fast [("s.txt".data, some "a line".data)] " A ".data (by decide)

/-- C6: every result entry of the search comes from a readable document of
the scan, and its snippet list is exactly the spec-side description: the
first at most three matching lines of the lower-cased content, each
rendered as the window of the matching line plus one line before and one
after joined by newlines, trimmed to 200 characters with the ellipsis
marker when longer, in line order. -/
theorem c6_snippets_spec (docs : List (PyStr × Option PyStr)) (term p : PyStr)
    (snips : List PyStr) (h : (p, snips) ∈ search_results docs term) :
    ∃ text, (p, some text) ∈ docs ∧
      snips = spec_snippets term (split_on '\n' (py_lower text)) ∧ snips.length ≤ 3 := by
  obtain ⟨d, hd, hde⟩ := List.mem_filterMap.mp h
  rcases d with ⟨path, oc⟩
  cases oc with
  | none => simp [doc_entry] at hde
  | some text =>
    unfold doc_entry at hde
    simp only at hde
    split_ifs at hde with h1 h2
    cases hde
    refine ⟨text, hd, ?_, ?_⟩
    · rw [← collect_snippets_eq_spec]
    · rw [collect_snippets_eq_spec]
      unfold spec_snippets
      simp only [List.length_map, List.length_take]
      omega

/-- C6 witness: searching `beta` in a three-line document yields the
snippet window of the matching middle line with both neighbours. -/
theorem c6_snippets_spec_witness :
    ∃ text, ("notes.txt".data, some text)
        ∈ [("notes.txt".data, some "alpha\nBeta x\ngamma".data)] ∧
      ["alpha\nbeta x\ngamma".data]
          = spec_snippets "beta".data (split_on '\n' (py_lower text)) ∧
      (["alpha\nbeta x\ngamma".data] : List PyStr).length ≤ 3 :=
  c6_snippets_spec [("notes.txt".data, some "alpha\nBeta x\ngamma".data)] "beta".data
    "notes.txt".data ["alpha\nbeta x\ngamma".data] (by decide)

/-- C7: a document whose path contains the query but none of whose
(lower-cased) content lines contains it is excluded from the search
results — it contributes no result entry. -/
theorem c7_path_only_match_excluded (docs : List (PyStr × Option PyStr)) (term p text : PyStr)
    (honly : ∀ oc, (p, oc) ∈ docs → oc = some text)
    (_hpath : is_substr term (py_lower p) = true)
    (hnoline : ∀ l ∈ split_on '\n' (py_lower text), is_substr term l = false) :
    p ∉ (search_results docs term).map Prod.fst := by
  induction docs with
  | nil => simp [search_results]
  | cons d rest ih =>
    unfold search_results
    rw [List.filterMap_cons]
    cases hde : doc_entry term d with
    | none =>
      exact ih fun oc hoc => honly oc (List.mem_cons_of_mem _ hoc)
    | some val =>
      rcases val with ⟨q, s⟩
      rw [List.map_cons]
      intro hmem
      rcases List.mem_cons.mp hmem with heq | htail
      · have hq : q = d.1 := doc_entry_fst term d q s hde
        have hdp : d.1 = p := by
          simp only [] at heq
          rw [← hq, heq.symm]
        have hdeq : d = (p, d.2) := by
          rcases d with ⟨d1, d2⟩
          simp at hdp
          rw [hdp]
        have hoc : d.2 = some text := honly d.2 (by rw [← hdeq]; exact List.mem_cons_self _ _)
        rw [hdeq, hoc, doc_entry_no_line_match term p text hnoline] at hde
        cases hde
      · exact (ih fun oc hoc => honly oc (List.mem_cons_of_mem _ hoc)) htail

/-- C7 witness: the file `beta.txt` matches the query `beta` by path only
(its content has no line containing the term) and appears in no result. -/
theorem c7_path_only_match_excluded_witness :
    "beta.txt".data
      ∉ (search_results [("beta.txt".data, some "alpha\ngamma".data)] "beta".data).map
          Prod.fst :=
  c7_path_only_match_excluded [("beta.txt".data, some "alpha\ngamma".data)] "beta".data
    "beta.txt".data "alpha\ngamma".data
    (fun _ h => congrArg Prod.snd (List.mem_singleton.mp h))
    (by decide) (by decide)

/-- C8 counterexample: with `total_files = 0` and a progress map that
already records a studied document, the stats handlers reply with the
"no materials" message, not with a stats payload of studied count 0 and
percentage 0. -/
theorem c8_zero_total_counterexample :
    on_stats [("a.txt".data, true)] 0 = .noMaterials ∧
    StatsReply.noMaterials ≠ StatsReply.stats 0 0 0 :=
  ⟨rfl, by decide⟩

/-- C8 amended: with `total_files = 0` the stats handlers short-circuit to
the "no materials" reply for every progress map, computing neither a
studied count display nor a percentage — in particular no division by zero
occurs. -/
theorem c8_zero_total_amended (user_map : List (PyStr × Bool)) :
    on_stats user_map 0 = .noMaterials := rfl

/-- C9: `read_text_file` fails with `NotFound` both when the resolved path
does not exist and when it names a directory; it fails with
`BoundaryViolation` exactly on sandbox escape, and with `IOFailure` when
the file exists but reading it fails. -/
theorem c9_read_error_taxonomy (fs : FsNode) (root : List PyStr) (rel : PyStr) :
    (inside_root root (resolved_path root rel) = false →
      read_text_file fs root rel = .error .BoundaryViolation) ∧
    (read_text_file fs root rel = .error .BoundaryViolation →
      inside_root root (resolved_path root rel) = false) ∧
    (inside_root root (resolved_path root rel) = true →
      lookup_node fs (resolved_path root rel) = none →
      read_text_file fs root rel = .error .NotFound) ∧
    (∀ children, inside_root root (resolved_path root rel) = true →
      lookup_node fs (resolved_path root rel) = some (.dir children) →
      read_text_file fs root rel = .error .NotFound) ∧
    (inside_root root (resolved_path root rel) = true →
      lookup_node fs (resolved_path root rel) = some (.file none) →
      read_text_file fs root rel = .error .IOFailure) := by
  refine ⟨?_, ?_, ?_, ?_, ?_⟩
  · intro h
    unfold read_text_file
    simp [h]
  · intro h
    by_contra hin
    rw [Bool.not_eq_false] at hin
    simp only [read_text_file, hin, if_true] at h
    cases hl : lookup_node fs (resolved_path root rel) with
    | none => rw [hl] at h; cases h
    | some node =>
      rw [hl] at h
      cases node with
      | dir children => cases h
      | file content => cases content <;> simp_all
  · intro hin hl
    simp [read_text_file, hin, hl]
  · intro children hin hl
    simp [read_text_file, hin, hl]
  · intro hin hl
    simp [read_text_file, hin, hl]

/-- C9 witness: inside the root `/srv/info`, reading a missing path gives
`NotFound`, reading the directory `sub` gives `NotFound`, and reading the
present-but-unreadable `bad.txt` gives `IOFailure`. -/
theorem c9_read_error_taxonomy_witness :
    read_text_file
        (FsNode.dir [("srv".data, FsNode.dir [("info".data, FsNode.dir
          [("sub".data, FsNode.dir []), ("bad.txt".data, FsNode.file none)])])])
        ["srv".data, "info".data] "missing.txt".data = .error .NotFound ∧
    read_text_file
        (FsNode.dir [("srv".data, FsNode.dir [("info".data, FsNode.dir
          [("sub".data, FsNode.dir []), ("bad.txt".data, FsNode.file none)])])])
        ["srv".data, "info".data] "sub".data = .error .NotFound ∧
    read_text_file
        (FsNode.dir [("srv".data, FsNode.dir [("info".data, FsNode.dir
          [("sub".data, FsNode.dir []), ("bad.txt".data, FsNode.file none)])])])
        ["srv".data, "info".data] "bad.txt".data = .error .IOFailure :=
  ⟨(c9_read_error_taxonomy _ _ _).2.2.1 (by decide) (by rfl),
   (c9_read_error_taxonomy _ _ _).2.2.2.1 [] (by decide) (by rfl),
   (c9_read_error_taxonomy _ _ _).2.2.2.2 (by decide) (by rfl)⟩

/-- C10: whenever the token resolves to a registered document reference of
kind `file`, the open-file handler sets the user's studied flag for that
path before `read_text_file` runs, and the surrounding exception handlers
do not undo it — so the flag is true afterwards whatever the read's
outcome, in particular on `NotFound`, `BoundaryViolation` or `IOFailure`. -/
theorem c10_marked_studied_before_read (fs : FsNode) (root : List PyStr)
    (reg : PathRegistry) (progress : Progress) (user : Int) (assigned_id rel : PyStr)
    (h : lookup_key reg.id_to_path assigned_id = some ("file".data, rel)) :
    is_studied (on_open_file fs root reg progress user assigned_id).1 user rel = true := by
  unfold on_open_file
  rw [h]
  simp only [if_true]
  cases hread : read_text_file fs root rel with
  | ok text => simp [is_studied_mark_studied]
  | error e => simp [is_studied_mark_studied]

/-- C10 witness: opening a registered but missing document fails with
`NotFound`, yet the user's progress entry was already set to true — the
state is not unchanged on error. -/
theorem c10_marked_studied_before_read_witness :
    read_text_file (FsNode.dir []) [] "missing.txt".data = .error .NotFound ∧
    is_studied
      (on_open_file (FsNode.dir []) []
        (PathRegistry.mk [("1".data, ("file".data, "missing.txt".data))]
          [(("file".data, "missing.txt".data), "1".data)] 1)
        [] 7 "1".data).1 7 "missing.txt".data = true :=
  ⟨by rfl,
   c10_marked_studied_before_read (FsNode.dir []) []
     (PathRegistry.mk [("1".data, ("file".data, "missing.txt".data))]
       [(("file".data, "missing.txt".data), "1".data)] 1)
     [] 7 "1".data "missing.txt".data (by rfl)⟩

end KaliAcademy
